import Mathlib

/-!
Verification development for the tool-calling agent loop of
`src/python/coding_agent_mcp_example.py`.

Text is modelled as `List Char`.  Python's `None`-or-empty string pattern
(`content or ""`) is modelled by the empty list, which is observationally
equivalent everywhere the source uses it.  The external collaborators
(the completion endpoint, and the `CodingAgentTools` capability provider,
whose module is not part of the sources) are modelled as opaque function
parameters, matching the specification's description of them as external
interfaces.
-/

/-- Lowercasing of a text, modelling Python `str.lower()` on the ASCII
texts handled by the program. -/
def lowerL (s : List Char) : List Char := s.map Char.toLower

/-- `leadsWith needle hay` is true when `needle` occurs at the very start
of `hay` (Python `str.startswith`, used to build substring search). -/
def leadsWith : List Char → List Char → Bool
  | [], _ => true
  | _ :: _, [] => false
  | a :: as, b :: bs => a = b && leadsWith as bs

/-- `containsSub needle hay` is true when `needle` occurs contiguously
anywhere in `hay`: Python's `needle in hay` on strings. -/
def containsSub (needle : List Char) : List Char → Bool
  | [] => needle.isEmpty
  | c :: rest => leadsWith needle (c :: rest) || containsSub needle rest

/-- ASCII whitespace, as matched by the regex class used in the source. -/
def wsChar (c : Char) : Bool :=
  c = ' ' || c = '\t' || c = '\n' || c = '\r' || c = Char.ofNat 11 || c = Char.ofNat 12

/-- Whether the regex alternative (the word "go", one or more whitespace
characters, then `word`) matches at the head of the text. -/
def goMatchAt (word : List Char) : List Char → Bool
  | 'g' :: 'o' :: rest =>
    !(rest.takeWhile wsChar).isEmpty && leadsWith word (rest.dropWhile wsChar)
  | _ => false

/-- Whether the regex alternative ("go", whitespace, `word`) matches
anywhere in the text. -/
def searchGoWord (word : List Char) : List Char → Bool
  | [] => false
  | c :: rest => goMatchAt word (c :: rest) || searchGoWord word rest

/-- The plain-literal alternatives of the shell-authorization regex in
`ChatBot.execute_tool` (line 189 of the source). -/
def shellMarkers : List (List Char) :=
  ["bash", "shell", "terminal", "run", "execute", "npm", "node", "yarn", "pnpm",
   "pip", "python", "pytest", "ts-node", "tsc", "make", "gradle", "cargo"].map String.toList

/-- The shell-authorization regex search of the source: some plain marker
occurs as a substring, or "go" followed by whitespace and "run"/"build"
occurs.  The regex has no word boundaries, so markers match inside
larger words. -/
def explicitShellRequest (text : List Char) : Bool :=
  shellMarkers.any (fun w => containsSub w text) ||
    searchGoWord ("run".toList) text || searchGoWord ("build".toList) text

/-- Conversation roles used by the program. -/
inductive Role
  | system
  | user
  | assistant
  | tool
deriving DecidableEq

/-- The undecoded `function.arguments` payload of a requested tool call:
either a JSON text that decodes to a string-valued object, or an
undecodable text (on which `json.loads` raises). -/
inductive RawArgs
  | invalid
  | decoded (d : List (List Char × List Char))
deriving DecidableEq

/-- A decoded tool-call arguments object (string keys and values). -/
abbrev ArgDict := List (List Char × List Char)

/-- One tool invocation requested by the endpoint
(`tool_call.id`, `tool_call.function.name`, `tool_call.function.arguments`). -/
structure ToolCall where
  id : List Char
  name : List Char
  arguments : RawArgs
deriving DecidableEq

/-- One conversation message (an entry of `self.messages`). -/
structure Message where
  role : Role
  content : List Char
  tool_calls : List ToolCall := []
  tool_call_id : Option (List Char) := none
deriving DecidableEq

/-- The message error text used to model the exception raised by
`json.loads` on an undecodable payload. -/
def jsonDecodeErrMsg : List Char :=
  "Expecting value: line 1 column 1 (char 0)".toList

/-- Python `json.loads` on an arguments payload: decodes or raises. -/
def json_loads : RawArgs → Except (List Char) ArgDict
  | RawArgs.invalid => Except.error jsonDecodeErrMsg
  | RawArgs.decoded d => Except.ok d

/-- Python dict subscript made total: `d[k]` is `some` value or a missing
key (on which subscripting raises `KeyError`). -/
def dictGet? (d : ArgDict) (k : List Char) : Option (List Char) :=
  (d.find? (fun p => decide (p.1 = k))).map Prod.snd

/-- The apostrophe character (used when rendering Python error reprs). -/
def apos : Char := Char.ofNat 39

/-- `str(KeyError(k))`, the text of a missing dictionary key error. -/
def keyErrStr (k : List Char) : List Char := apos :: (k ++ [apos])

/-- The last `user` message of the conversation, if any: the source scans
`reversed(self.messages)` for the first message whose role is "user". -/
def lastUser? (messages : List Message) : Option Message :=
  messages.reverse.find? (fun m => decide (m.role = Role.user))

/-- The text of the last user message, empty when there is none
(`(last_user.get("content") if last_user else "") or ""`). -/
def lastUserText (messages : List Message) : List Char :=
  match lastUser? messages with
  | some m => m.content
  | none => []

/-- The fixed denial reason returned when a bash command is requested
without explicit user intent (lines 192-196 of the source). -/
def blockedReason : List Char :=
  "Blocked: bash commands require explicit user request. Please proceed without execute_bash_command.".toList

/-- The shell-execution authorization decision of the Tool Gate, exactly
as computed at lines 181-196 of the source: lowercase the last user text
and search it with the explicit-request regex.  Returns the allowed flag
and, when denied, the fixed denial reason. -/
def authorizeShellExecution (messages : List Message) : Bool × List Char :=
  if explicitShellRequest (lowerL (lastUserText messages)) then (true, [])
  else (false, blockedReason)

/-- The fixed intent markers of `ChatBot.should_enable_tools_for_next_turn`
(lines 341-346 of the source). -/
def tool_intents : List (List Char) :=
  ["read file", "write file", "create file", "append to file", "search", "grep", "file tree",
   "directory", "path", "open", "bash", "shell", "terminal", "run", "execute", "npm", "node",
   "ts-node", "tsc", "yarn", "pnpm", "pip", "python", "pytest", "make", "gradle", "cargo",
   "go run", "go build", ".ts", ".js", ".json", ".py", ".md", "/", "\\"].map String.toList

/-- The tool-exposure decision (`shouldExposeTools` of the specification):
true when no user message exists yet, else true exactly when the
lowercased last user text contains one of the fixed intent markers
(lines 322-347 of the source). -/
def ChatBot.should_enable_tools_for_next_turn (messages : List Message) : Bool :=
  match lastUser? messages with
  | none => true
  | some m => tool_intents.any (fun w => containsSub w (lowerL m.content))

/-- The outcome of executing a capability: a plain string (passed through
unchanged to the transcript), the shell-command result dictionary, or an
opaque structured value whose canonical `json.dumps` rendering is given. -/
inductive ToolResult
  | text (s : List Char)
  | shellOut (stdout stderr : List Char) (returncode : Int)
  | structured (rendered : List Char)
deriving DecidableEq

/-- One hexadecimal digit, lowercase. -/
def hexDigit (n : Nat) : Char :=
  if n < 10 then Char.ofNat (48 + n) else Char.ofNat (87 + n)

/-- JSON escaping of one character, as performed by `json.dumps` on the
ASCII texts handled by the program. -/
def escChar (c : Char) : List Char :=
  if c = '"' then ['\\', '"']
  else if c = '\\' then ['\\', '\\']
  else if c = '\n' then ['\\', 'n']
  else if c = '\t' then ['\\', 't']
  else if c = '\r' then ['\\', 'r']
  else if c.toNat < 32 then
    ['\\', 'u', '0', '0', hexDigit (c.toNat / 16), hexDigit (c.toNat % 16)]
  else [c]

/-- JSON escaping of a text. -/
def escJson (s : List Char) : List Char := (s.map escChar).flatten

/-- Modelled from the spec: the canonical textual rendering of the shell
result dictionary, i.e. `json.dumps({"stdout": .., "stderr": ..,
"returncode": ..}, indent=2)` (the JSON library itself is external to the
repository). -/
def jsonDumpsShell (stdout stderr : List Char) (rc : Int) : List Char :=
  "\x7b\n  \"stdout\": \"".toList ++ escJson stdout ++
    "\",\n  \"stderr\": \"".toList ++ escJson stderr ++
    "\",\n  \"returncode\": ".toList ++ (toString rc).toList ++ "\n\x7d".toList

/-- The transcript rendering of a tool result (line 450 of the source):
strings pass through, structured values are `json.dumps`-rendered. -/
def render : ToolResult → List Char
  | ToolResult.text s => s
  | ToolResult.shellOut o e rc => jsonDumpsShell o e rc
  | ToolResult.structured s => s

/-- Modelled from the spec: the external Tool Capability Provider
(`CodingAgentTools`, plus the MCP sequential-thinking bridge; the
`coding_agent_tools` module is not among the sources).  Each capability
either returns a result or raises, which the caller must catch. -/
structure AgentTools where
  read_file : List Char → Except (List Char) ToolResult
  write_file : List Char → List Char → Except (List Char) Unit
  see_file_tree : List Char → Except (List Char) ToolResult
  execute_bash_command : List Char → Option (List Char) → Except (List Char) (List Char × List Char × Int)
  search_in_files : List Char → List Char → Except (List Char) ToolResult
  sequentialthinking : ArgDict → Except (List Char) ToolResult

/-- "Error executing {tool_name}: {str(e)}" (line 215 of the source). -/
def errExec (tool_name msg : List Char) : List Char :=
  "Error executing ".toList ++ tool_name ++ ": ".toList ++ msg

/-- `ChatBot.execute_tool` (lines 168-215 of the source), over decoded
arguments (the `json.loads` step happens at the call site, line 442).
Besides the tool result, it returns the list of capability invocations
actually forwarded to the provider, so that non-invocation of a
capability is directly expressible.  All failures raised by a capability
(or by a missing argument key) are caught and converted to the
"Error executing ..." text. -/
def ChatBot.execute_tool (tools : AgentTools) (messages : List Message)
    (tool_name : List Char) (arguments : ArgDict) : ToolResult × List (List Char) :=
  if tool_name = "read_file".toList then
    match dictGet? arguments ("filepath".toList) with
    | none => (ToolResult.text (errExec tool_name (keyErrStr ("filepath".toList))), [])
    | some fp =>
      match tools.read_file fp with
      | Except.ok r => (r, ["read_file".toList])
      | Except.error e => (ToolResult.text (errExec tool_name e), ["read_file".toList])
  else if tool_name = "write_file".toList then
    match dictGet? arguments ("filepath".toList) with
    | none => (ToolResult.text (errExec tool_name (keyErrStr ("filepath".toList))), [])
    | some fp =>
      match dictGet? arguments ("content".toList) with
      | none => (ToolResult.text (errExec tool_name (keyErrStr ("content".toList))), [])
      | some content =>
        match tools.write_file fp content with
        | Except.ok _ => (ToolResult.text ("Successfully wrote to ".toList ++ fp), ["write_file".toList])
        | Except.error e => (ToolResult.text (errExec tool_name e), ["write_file".toList])
  else if tool_name = "see_file_tree".toList then
    let root_dir := (dictGet? arguments ("root_dir".toList)).getD (".".toList)
    match tools.see_file_tree root_dir with
    | Except.ok r => (r, ["see_file_tree".toList])
    | Except.error e => (ToolResult.text (errExec tool_name e), ["see_file_tree".toList])
  else if tool_name = "execute_bash_command".toList then
    if (authorizeShellExecution messages).1 = false then
      (ToolResult.shellOut [] blockedReason 1, [])
    else
      match dictGet? arguments ("command".toList) with
      | none => (ToolResult.text (errExec tool_name (keyErrStr ("command".toList))), [])
      | some command =>
        let cwd := dictGet? arguments ("cwd".toList)
        match tools.execute_bash_command command cwd with
        | Except.ok out => (ToolResult.shellOut out.1 out.2.1 out.2.2, ["execute_bash_command".toList])
        | Except.error e => (ToolResult.text (errExec tool_name e), ["execute_bash_command".toList])
  else if tool_name = "search_in_files".toList then
    match dictGet? arguments ("pattern".toList) with
    | none => (ToolResult.text (errExec tool_name (keyErrStr ("pattern".toList))), [])
    | some pat =>
      let root_dir := (dictGet? arguments ("root_dir".toList)).getD (".".toList)
      match tools.search_in_files pat root_dir with
      | Except.ok r => (r, ["search_in_files".toList])
      | Except.error e => (ToolResult.text (errExec tool_name e), ["search_in_files".toList])
  else if tool_name = "sequentialthinking".toList then
    match tools.sequentialthinking arguments with
    | Except.ok r => (r, ["sequentialthinking".toList])
    | Except.error e => (ToolResult.text (errExec tool_name e), ["sequentialthinking".toList])
  else
    (ToolResult.text ("Unknown tool: ".toList ++ tool_name), [])

/-- The mutable state of a `ChatBot`: the owned conversation and the
prompt counter (`self.messages`, `self.number_of_prompts_sent`), plus the
stored system prompt. -/
structure BotState where
  messages : List Message
  number_of_prompts_sent : Nat
  system : List Char
deriving DecidableEq

/-- The default system prompt of `ChatBot.__init__`. -/
def defaultSystem : List Char :=
  ("You are a helpful coding assistant with access to file system tools. " ++
   "Only use tools for file operations, code analysis, project navigation, or when the user explicitly asks you to run a shell command. " ++
   "Do NOT use tools for general knowledge questions; answer from your own knowledge unless the user specifically references files, paths, or commands.").toList

/-- `ChatBot.__init__`: an empty counter and a conversation holding the
system message (the provided system text, or the default when empty). -/
def ChatBot.init (system : List Char) : BotState :=
  let sys := if system = [] then defaultSystem else system
  { messages := [{ role := Role.system, content := sys }],
    number_of_prompts_sent := 0, system := sys }

/-- One response of the completion endpoint: an assistant turn (content
and requested tool calls, both possibly empty), or a raised error. -/
inductive EndpointResult
  | ok (content : List Char) (tool_calls : List ToolCall)
  | fail (err : List Char)
deriving DecidableEq

/-- The tool calls carried by an endpoint response (none when it raised). -/
def EndpointResult.callsOf : EndpointResult → List ToolCall
  | EndpointResult.ok _ tcs => tcs
  | EndpointResult.fail _ => []

/-- Modelled from the spec: the external Completion Endpoint Client.  It
is given the index of the request (the prompt counter), the conversation
so far and whether the tool catalog is attached, and answers one
assistant turn or raises. -/
def Endpoint : Type := Nat → List Message → Bool → EndpointResult

/-- The response object the loop inspects: `content` and `tool_calls`
of `response.choices[0].message` (with `None` content and `None`
tool-call lists both modelled as empty, as the source only ever uses
them through `or ""` and truthiness). -/
structure RespMsg where
  content : List Char
  tool_calls : List ToolCall
deriving DecidableEq

/-- "Error: {e}", the content of the synthetic message built when the
endpoint call raises (line 392 of the source). -/
def errPrefix : List Char := "Error: ".toList

/-- `ChatBot.execute` (lines 356-392 of the source): increment the prompt
counter, call the endpoint with the conversation (attaching the tool
catalog exactly when the exposure decision says so), and return the new
state with the response message; a raised endpoint error is caught and
converted into an assistant-shaped message with an error description and
no tool calls. -/
def ChatBot.execute (ep : Endpoint) (st : BotState) : BotState × RespMsg :=
  let st2 : BotState := { st with number_of_prompts_sent := st.number_of_prompts_sent + 1 }
  match ep st2.number_of_prompts_sent st2.messages (ChatBot.should_enable_tools_for_next_turn st2.messages) with
  | EndpointResult.ok c tcs => (st2, { content := c, tool_calls := tcs })
  | EndpointResult.fail e => (st2, { content := errPrefix ++ e, tool_calls := [] })

/-- The running state of one `query` call: the bot state plus the
`tool_results_accum` transcript, extended with the log of capability
invocations actually performed (for stating non-invocation). -/
structure LoopState where
  st : BotState
  accum : List (List Char)
  log : List (List Char)
deriving DecidableEq

/-- The outcome of the tool-execution inner loop over one assistant
turn's invocations: finished, or an exception escaped (from `json.loads`
at line 442, which sits outside `execute_tool`'s try/except). -/
inductive ProcOut
  | okP (ls : LoopState)
  | raisedP (err : List Char) (ls : LoopState)
deriving DecidableEq

/-- The loop state carried by a `ProcOut` (the mutations performed up to
the return or the escaping exception). -/
def ProcOut.ls : ProcOut → LoopState
  | ProcOut.okP l => l
  | ProcOut.raisedP _ l => l

/-- Whether the inner loop finished without an escaping exception. -/
def ProcOut.isOkB : ProcOut → Bool
  | ProcOut.okP _ => true
  | ProcOut.raisedP _ _ => false

/-- The per-invocation inner loop of `query` (lines 440-458 of the
source): decode the arguments (an undecodable payload raises out of the
loop), execute the tool, record the rendered result in the transcript
accumulator, and append one `tool` message carrying the invocation's id. -/
def processCalls (tools : AgentTools) : List ToolCall → LoopState → ProcOut
  | [], ls => ProcOut.okP ls
  | tc :: rest, ls =>
    match json_loads tc.arguments with
    | Except.error e => ProcOut.raisedP e ls
    | Except.ok args =>
      let r := ChatBot.execute_tool tools ls.st.messages tc.name args
      let display := render r.1
      let ls2 : LoopState :=
        { st := { ls.st with messages := ls.st.messages ++
            [{ role := Role.tool, content := display, tool_call_id := some tc.id }] },
          accum := ls.accum ++ [display],
          log := ls.log ++ r.2 }
      processCalls tools rest ls2

/-- The explanatory note prefixed to the fallback answer (line 470 of
the source). -/
def fallbackNote : List Char :=
  "No final model answer was returned. Here".toList ++ [apos] ++
    "s the latest Sequential Thinking result:\n".toList

/-- The content returned on the no-tool-calls path (lines 465-472 of the
source): the response content, except that when it is empty and tool
results were accumulated, the fallback summary (the explanatory note
plus the most recent tool result text) replaces it. -/
def finalContent (resp : RespMsg) (ls : LoopState) : List Char :=
  if resp.content = [] ∧ ls.accum ≠ [] then fallbackNote ++ ls.accum.getLastD []
  else resp.content

/-- Appending a plain assistant message to the conversation (line 473 of
the source). -/
def appendAssistant (ls : LoopState) (c : List Char) : LoopState :=
  { ls with st := { ls.st with messages := ls.st.messages ++
      [{ role := Role.assistant, content := c }] } }

/-- Appending the assistant turn that carries tool calls, preserving its
invocation list (lines 432-437 of the source). -/
def appendAssistantCalls (ls : LoopState) (resp : RespMsg) : LoopState :=
  { ls with st := { ls.st with messages := ls.st.messages ++
      [{ role := Role.assistant, content := resp.content, tool_calls := resp.tool_calls }] } }

/-- The outcome of one `query` call: a normal return (with the answer
text, or no value at all when the cycle-limit `break` falls off the end
of the function), or an escaping exception, together with the final
loop state. -/
inductive QueryOutcome
  | returned (answer : Option (List Char)) (ls : LoopState)
  | raised (err : List Char) (ls : LoopState)
deriving DecidableEq

/-- The loop state carried by a `QueryOutcome`. -/
def QueryOutcome.ls : QueryOutcome → LoopState
  | QueryOutcome.returned _ l => l
  | QueryOutcome.raised _ l => l

/-- The value returned by `query`, when it returned at all. -/
def QueryOutcome.answerOf : QueryOutcome → Option (List Char)
  | QueryOutcome.returned a _ => a
  | QueryOutcome.raised _ _ => none

/-- Whether `query` ended with an escaping exception. -/
def QueryOutcome.raisedB : QueryOutcome → Bool
  | QueryOutcome.returned _ _ => false
  | QueryOutcome.raised _ _ => true

/-- The error of an escaping exception, when there was one. -/
def QueryOutcome.errOf : QueryOutcome → Option (List Char)
  | QueryOutcome.returned _ _ => none
  | QueryOutcome.raised e _ => some e

/-- The `while True` loop of `query` (lines 425-474 of the source).  The
first argument is recursion fuel, an embedding artifact for the `while`
loop: every lemma below carries the hypothesis that the fuel exceeds
`maxC - cycles`, which makes the fuel-exhaustion branch unreachable, and
`query` passes ample fuel.  Control flow, faithful to the source: when
the response carries tool calls, the cycle counter is bumped and checked
against the limit -- on overflow the `break` leaves the function with no
return value (Python returns `None`) and no appended message; otherwise
the assistant turn is appended (preserving its invocation list), the
invocations are processed in order, and the endpoint is asked again.
When the response carries no tool calls, the final content is returned
(replaced by the fallback summary when it is empty and tool results
exist) and appended as an assistant message. -/
def queryLoop (tools : AgentTools) (ep : Endpoint) (maxC : Nat) :
    Nat → RespMsg → Nat → LoopState → QueryOutcome
  | fuel, resp, cycles, ls =>
    if resp.tool_calls = [] then
      QueryOutcome.returned (some (finalContent resp ls)) (appendAssistant ls (finalContent resp ls))
    else if cycles + 1 > maxC then
      QueryOutcome.returned none ls
    else
      match fuel with
      | 0 => QueryOutcome.returned none ls
      | fuel2 + 1 =>
        match processCalls tools resp.tool_calls (appendAssistantCalls ls resp) with
        | ProcOut.raisedP e ls2 => QueryOutcome.raised e ls2
        | ProcOut.okP ls2 =>
          let r := ChatBot.execute ep ls2.st
          queryLoop tools ep maxC fuel2 r.2 (cycles + 1) { ls2 with st := r.1 }

/-- `max_tool_cycles` (line 421 of the source). -/
def max_tool_cycles : Nat := 8

/-- `query(question, bot)` (lines 416-474 of the source): append the
user message, call the endpoint once through the bot, then run the
tool-handling loop with the cycle limit of 8. -/
def query (tools : AgentTools) (ep : Endpoint) (question : List Char) (st : BotState) : QueryOutcome :=
  let st1 : BotState := { st with messages := st.messages ++ [{ role := Role.user, content := question }] }
  let r := ChatBot.execute ep st1
  queryLoop tools ep max_tool_cycles (max_tool_cycles + 2) r.2 0 { st := r.1, accum := [], log := [] }

/-- A concrete capability-provider stub used by witnesses and
counterexamples. -/
def stubTools : AgentTools :=
  { read_file := fun _ => Except.ok (ToolResult.text ("ok".toList)),
    write_file := fun _ _ => Except.ok (),
    see_file_tree := fun _ => Except.ok (ToolResult.text ("tree".toList)),
    execute_bash_command := fun _ _ => Except.ok (("out".toList, [], 0)),
    search_in_files := fun _ _ => Except.ok (ToolResult.text ("found".toList)),
    sequentialthinking := fun _ => Except.ok (ToolResult.text ("think".toList)) }

/-- A fixed assistant turn requesting one (well-formed) tool
invocation. -/
def epAlwaysAnswer : EndpointResult :=
  EndpointResult.ok []
    [{ id := ['1'], name := "see_file_tree".toList, arguments := RawArgs.decoded [] }]

/-- An endpoint stub that always requests that one invocation. -/
def epAlwaysTool : Endpoint := fun _ _ _ => epAlwaysAnswer

/-- An endpoint stub whose first answer requests a tool invocation whose
arguments payload is undecodable. -/
def epBadArgs : Endpoint := fun _ _ _ =>
  EndpointResult.ok [] [{ id := ['1'], name := "read_file".toList, arguments := RawArgs.invalid }]

/-- An endpoint stub that always raises. -/
def epFailStub : Endpoint := fun _ _ _ => EndpointResult.fail ("boom".toList)

/-- A user message with the given text. -/
def mkUserM (s : List Char) : Message := { role := Role.user, content := s }

/-- Taking the length of the left summand of an append returns it. -/
lemma takeLenAppend {α : Type} (l d : List α) : (l ++ d).take l.length = l := by
  induction l with
  | nil => rfl
  | cons a as ih => simp [List.take, ih]

/-- Dropping the length of the left summand of an append returns the
right summand. -/
lemma dropLenAppend {α : Type} (l d : List α) : (l ++ d).drop l.length = d := by
  induction l with
  | nil => rfl
  | cons a as ih => simp [List.drop, ih]


/-- `ChatBot.execute` only bumps the prompt counter: the returned state
is the input state with `number_of_prompts_sent` incremented. -/
lemma execute_state_eq (ep : Endpoint) (st : BotState) :
    (ChatBot.execute ep st).1 =
      { st with number_of_prompts_sent := st.number_of_prompts_sent + 1 } := by
  cases h : ep (st.number_of_prompts_sent + 1) st.messages
      (ChatBot.should_enable_tools_for_next_turn st.messages) <;>
    simp [ChatBot.execute, h]

/-- The tool calls of the message returned by `ChatBot.execute` are the
tool calls of the endpoint answer (none when the endpoint raised). -/
lemma execute_calls_eq (ep : Endpoint) (st : BotState) :
    (ChatBot.execute ep st).2.tool_calls =
      (ep (st.number_of_prompts_sent + 1) st.messages
        (ChatBot.should_enable_tools_for_next_turn st.messages)).callsOf := by
  cases h : ep (st.number_of_prompts_sent + 1) st.messages
      (ChatBot.should_enable_tools_for_next_turn st.messages) <;>
    simp [ChatBot.execute, h, EndpointResult.callsOf]

/-- The `tool` message appended for one decoded invocation. -/
def toolMsgFor (tools : AgentTools) (ls : LoopState) (tid tname : List Char) (args : ArgDict) : Message :=
  { role := Role.tool,
    content := render (ChatBot.execute_tool tools ls.st.messages tname args).1,
    tool_call_id := some tid }

/-- The loop state after executing one decoded invocation. -/
def stepLS (tools : AgentTools) (ls : LoopState) (tid tname : List Char) (args : ArgDict) : LoopState :=
  { st := { ls.st with messages := ls.st.messages ++ [toolMsgFor tools ls tid tname args] },
    accum := ls.accum ++ [render (ChatBot.execute_tool tools ls.st.messages tname args).1],
    log := ls.log ++ (ChatBot.execute_tool tools ls.st.messages tname args).2 }

/-- Unfolding equation of the inner loop at a decoded invocation. -/
lemma processCalls_cons (tools : AgentTools) (tid tname : List Char) (args : ArgDict)
    (rest : List ToolCall) (ls : LoopState) :
    processCalls tools ({ id := tid, name := tname, arguments := RawArgs.decoded args } :: rest) ls =
      processCalls tools rest (stepLS tools ls tid tname args) := rfl

/-- The tool-execution inner loop never touches the prompt counter or
the stored system prompt, and only appends to the conversation --
whether it finishes or an exception escapes. -/
lemma processCalls_state (tools : AgentTools) :
    ∀ (tcs : List ToolCall) (ls : LoopState),
      (processCalls tools tcs ls).ls.st.number_of_prompts_sent = ls.st.number_of_prompts_sent ∧
      (processCalls tools tcs ls).ls.st.system = ls.st.system ∧
      ∃ d, (processCalls tools tcs ls).ls.st.messages = ls.st.messages ++ d := by
  intro tcs
  induction tcs with
  | nil => intro ls; exact ⟨rfl, rfl, [], by simp [processCalls, ProcOut.ls]⟩
  | cons tc rest ih =>
    intro ls
    obtain ⟨tid, tname, targs⟩ := tc
    cases targs with
    | invalid => exact ⟨rfl, rfl, [], by simp [processCalls, json_loads, ProcOut.ls]⟩
    | decoded args =>
      rw [processCalls_cons]
      obtain ⟨h1, h2, d, h3⟩ := ih (stepLS tools ls tid tname args)
      refine ⟨h1, h2, toolMsgFor tools ls tid tname args :: d, ?_⟩
      rw [h3]
      simp [stepLS]

/-- The loop state reached when the inner loop finishes after appending
the messages `d` and the capability-log entries `d2`. -/
def okState (ls : LoopState) (d : List Message) (d2 : List (List Char)) : LoopState :=
  { st := { messages := ls.st.messages ++ d,
            number_of_prompts_sent := ls.st.number_of_prompts_sent,
            system := ls.st.system },
    accum := ls.accum ++ d.map Message.content,
    log := ls.log ++ d2 }

/-- When every invocation's arguments decode, the inner loop finishes:
it appends exactly one `tool` message per invocation (carrying the
invocation's id, in invocation order), records each rendered result in
the transcript accumulator, and leaves the counter and system prompt
untouched. -/
lemma processCalls_ok_spec (tools : AgentTools) :
    ∀ (tcs : List ToolCall) (ls : LoopState),
      (∀ tc ∈ tcs, tc.arguments ≠ RawArgs.invalid) →
      ∃ d d2, processCalls tools tcs ls = ProcOut.okP (okState ls d d2) ∧
        d.map (fun m => (m.role, m.tool_call_id)) =
          tcs.map (fun tc => (Role.tool, some tc.id)) := by
  intro tcs
  induction tcs with
  | nil =>
    intro ls _
    refine ⟨[], [], ?_, rfl⟩
    cases ls with
    | mk st accum log =>
      cases st
      simp [processCalls, okState]
  | cons tc rest ih =>
    intro ls h
    obtain ⟨tid, tname, targs⟩ := tc
    cases targs with
    | invalid =>
      exact absurd rfl (h _ (List.mem_cons_self _ _))
    | decoded args =>
      rw [processCalls_cons]
      obtain ⟨d, d2, heq, hmap⟩ := ih (stepLS tools ls tid tname args)
        (fun x hx => h x (List.mem_cons_of_mem _ hx))
      refine ⟨toolMsgFor tools ls tid tname args :: d,
        (ChatBot.execute_tool tools ls.st.messages tname args).2 ++ d2, ?_, ?_⟩
      · rw [heq]
        simp [stepLS, okState, toolMsgFor]
      · simp [toolMsgFor]
        exact hmap

/-- Unfolding of the loop on the no-tool-calls (terminal) path. -/
lemma queryLoop_terminal (tools : AgentTools) (ep : Endpoint) (maxC fuel : Nat)
    (resp : RespMsg) (cycles : Nat) (ls : LoopState) (h1 : resp.tool_calls = []) :
    queryLoop tools ep maxC fuel resp cycles ls =
      QueryOutcome.returned (some (finalContent resp ls)) (appendAssistant ls (finalContent resp ls)) := by
  cases fuel <;> simp [queryLoop, h1]

/-- Unfolding of the loop when the cycle limit is exceeded: the `break`
leaves the function with no return value and no state change. -/
lemma queryLoop_break (tools : AgentTools) (ep : Endpoint) (maxC fuel : Nat)
    (resp : RespMsg) (cycles : Nat) (ls : LoopState)
    (h1 : resp.tool_calls ≠ []) (h2 : cycles + 1 > maxC) :
    queryLoop tools ep maxC fuel resp cycles ls = QueryOutcome.returned none ls := by
  cases fuel <;> simp [queryLoop, h1, h2]

/-- Unfolding of the loop on a tool round whose inner loop finishes. -/
lemma queryLoop_round_ok (tools : AgentTools) (ep : Endpoint) (maxC fuel2 : Nat)
    (resp : RespMsg) (cycles : Nat) (ls ls2 : LoopState)
    (h1 : resp.tool_calls ≠ []) (h2 : ¬ (cycles + 1 > maxC))
    (hp : processCalls tools resp.tool_calls (appendAssistantCalls ls resp) = ProcOut.okP ls2) :
    queryLoop tools ep maxC (fuel2 + 1) resp cycles ls =
      queryLoop tools ep maxC fuel2 (ChatBot.execute ep ls2.st).2 (cycles + 1)
        { ls2 with st := (ChatBot.execute ep ls2.st).1 } := by
  simp [queryLoop, h1, h2, hp]

/-- Unfolding of the loop on a tool round from which the argument-decode
exception escapes. -/
lemma queryLoop_round_raised (tools : AgentTools) (ep : Endpoint) (maxC fuel2 : Nat)
    (resp : RespMsg) (cycles : Nat) (ls ls2 : LoopState) (e : List Char)
    (h1 : resp.tool_calls ≠ []) (h2 : ¬ (cycles + 1 > maxC))
    (hp : processCalls tools resp.tool_calls (appendAssistantCalls ls resp) = ProcOut.raisedP e ls2) :
    queryLoop tools ep maxC (fuel2 + 1) resp cycles ls = QueryOutcome.raised e ls2 := by
  simp [queryLoop, h1, h2, hp]

/-- Across the whole loop, the prompt counter never decreases and the
conversation is only ever appended to. -/
lemma queryLoop_mono (tools : AgentTools) (ep : Endpoint) (maxC : Nat) :
    ∀ (fuel : Nat) (resp : RespMsg) (cycles : Nat) (ls : LoopState),
      ls.st.number_of_prompts_sent ≤
        (queryLoop tools ep maxC fuel resp cycles ls).ls.st.number_of_prompts_sent ∧
      ∃ d, (queryLoop tools ep maxC fuel resp cycles ls).ls.st.messages = ls.st.messages ++ d := by
  intro fuel
  induction fuel with
  | zero =>
    intro resp cycles ls
    by_cases h1 : resp.tool_calls = []
    · rw [queryLoop_terminal tools ep maxC 0 resp cycles ls h1]
      exact ⟨Nat.le_refl _, [{ role := Role.assistant, content := finalContent resp ls }],
        by simp [QueryOutcome.ls, appendAssistant]⟩
    · by_cases h2 : cycles + 1 > maxC
      · rw [queryLoop_break tools ep maxC 0 resp cycles ls h1 h2]
        exact ⟨Nat.le_refl _, [], by simp [QueryOutcome.ls]⟩
      · constructor
        · simp [queryLoop, h1, h2, QueryOutcome.ls]
        · exact ⟨[], by simp [queryLoop, h1, h2, QueryOutcome.ls]⟩
  | succ fuel2 ih =>
    intro resp cycles ls
    by_cases h1 : resp.tool_calls = []
    · rw [queryLoop_terminal tools ep maxC (fuel2 + 1) resp cycles ls h1]
      exact ⟨Nat.le_refl _, [{ role := Role.assistant, content := finalContent resp ls }],
        by simp [QueryOutcome.ls, appendAssistant]⟩
    · by_cases h2 : cycles + 1 > maxC
      · rw [queryLoop_break tools ep maxC (fuel2 + 1) resp cycles ls h1 h2]
        exact ⟨Nat.le_refl _, [], by simp [QueryOutcome.ls]⟩
      · cases hp : processCalls tools resp.tool_calls (appendAssistantCalls ls resp) with
        | raisedP e ls2 =>
          rw [queryLoop_round_raised tools ep maxC fuel2 resp cycles ls ls2 e h1 h2 hp]
          obtain ⟨hc, hs, d, hm⟩ := processCalls_state tools resp.tool_calls (appendAssistantCalls ls resp)
          rw [hp] at hc hm
          simp only [ProcOut.ls] at hc hm
          refine ⟨?_, ?_⟩
          · simp only [QueryOutcome.ls]
            rw [hc]
            simp [appendAssistantCalls]
          · refine ⟨{ role := Role.assistant, content := resp.content, tool_calls := resp.tool_calls } :: d, ?_⟩
            simp only [QueryOutcome.ls]
            rw [hm]
            simp [appendAssistantCalls]
        | okP ls2 =>
          rw [queryLoop_round_ok tools ep maxC fuel2 resp cycles ls ls2 h1 h2 hp]
          obtain ⟨hc, hs, d, hm⟩ := processCalls_state tools resp.tool_calls (appendAssistantCalls ls resp)
          rw [hp] at hc hm
          simp only [ProcOut.ls] at hc hm
          obtain ⟨ihc, d2, ihm⟩ := ih (ChatBot.execute ep ls2.st).2 (cycles + 1)
            { ls2 with st := (ChatBot.execute ep ls2.st).1 }
          refine ⟨?_, ?_⟩
          · refine Nat.le_trans ?_ ihc
            show ls.st.number_of_prompts_sent ≤ (ChatBot.execute ep ls2.st).1.number_of_prompts_sent
            rw [execute_state_eq]
            show ls.st.number_of_prompts_sent ≤ ls2.st.number_of_prompts_sent + 1
            rw [hc]
            simp only [appendAssistantCalls]
            exact Nat.le_succ _
          · refine ⟨{ role := Role.assistant, content := resp.content, tool_calls := resp.tool_calls } :: (d ++ d2), ?_⟩
            rw [ihm]
            show (ChatBot.execute ep ls2.st).1.messages ++ d2 = _
            rw [execute_state_eq]
            show ls2.st.messages ++ d2 = _
            rw [hm]
            simp [appendAssistantCalls]

/-- If the endpoint answers every request with at least one well-formed
tool invocation, the loop runs tool rounds until the cycle limit trips,
ending in the no-value `break` exit after `maxC - cycles` further
endpoint calls. -/
lemma queryLoop_always (tools : AgentTools) (ep : Endpoint)
    (Hep : ∀ (n : Nat) (msgs : List Message) (b : Bool),
      (ep n msgs b).callsOf ≠ [] ∧ ∀ tc ∈ (ep n msgs b).callsOf, tc.arguments ≠ RawArgs.invalid)
    (maxC : Nat) :
    ∀ (fuel : Nat) (resp : RespMsg) (cycles : Nat) (ls : LoopState),
      maxC - cycles < fuel →
      resp.tool_calls ≠ [] →
      (∀ tc ∈ resp.tool_calls, tc.arguments ≠ RawArgs.invalid) →
      (queryLoop tools ep maxC fuel resp cycles ls).raisedB = false ∧
      (queryLoop tools ep maxC fuel resp cycles ls).answerOf = none ∧
      (queryLoop tools ep maxC fuel resp cycles ls).ls.st.number_of_prompts_sent =
        ls.st.number_of_prompts_sent + (maxC - cycles) := by
  intro fuel
  induction fuel with
  | zero =>
    intro resp cycles ls hf
    exact absurd hf (Nat.not_lt_zero _)
  | succ fuel2 ih =>
    intro resp cycles ls hf h1 hdec
    by_cases h2 : cycles + 1 > maxC
    · rw [queryLoop_break tools ep maxC (fuel2 + 1) resp cycles ls h1 h2]
      refine ⟨rfl, rfl, ?_⟩
      have hz : maxC - cycles = 0 := by omega
      rw [hz]
      rfl
    · obtain ⟨d, d2, heq, hmap⟩ :=
        processCalls_ok_spec tools resp.tool_calls (appendAssistantCalls ls resp) hdec
      rw [queryLoop_round_ok tools ep maxC fuel2 resp cycles ls
        (okState (appendAssistantCalls ls resp) d d2) h1 h2 heq]
      set ls2 := okState (appendAssistantCalls ls resp) d d2 with hls2
      have hcalls := execute_calls_eq ep ls2.st
      have hne := (Hep (ls2.st.number_of_prompts_sent + 1) ls2.st.messages
        (ChatBot.should_enable_tools_for_next_turn ls2.st.messages)).1
      have hdec2 := (Hep (ls2.st.number_of_prompts_sent + 1) ls2.st.messages
        (ChatBot.should_enable_tools_for_next_turn ls2.st.messages)).2
      rw [← hcalls] at hne hdec2
      obtain ⟨ra, an, hcnt⟩ := ih (ChatBot.execute ep ls2.st).2 (cycles + 1)
        { ls2 with st := (ChatBot.execute ep ls2.st).1 } (by omega) hne hdec2
      refine ⟨ra, an, ?_⟩
      rw [hcnt]
      have hc2 : ({ ls2 with st := (ChatBot.execute ep ls2.st).1 } : LoopState).st.number_of_prompts_sent =
          ls2.st.number_of_prompts_sent + 1 := by
        show (ChatBot.execute ep ls2.st).1.number_of_prompts_sent = _
        rw [execute_state_eq]
      rw [hc2]
      have hc3 : ls2.st.number_of_prompts_sent = ls.st.number_of_prompts_sent := by
        rw [hls2]
        simp [okState, appendAssistantCalls]
      rw [hc3]
      omega

/-- The bot state after `query` appends the user turn (line 350 of the
source, reached through `bot(question)`). -/
def userAppended (st : BotState) (question : List Char) : BotState :=
  { st with messages := st.messages ++ [mkUserM question] }

/-- `query` unfolded: one endpoint exchange through the bot, then the
tool-handling loop from cycle 0 with empty accumulators. -/
lemma query_eq (tools : AgentTools) (ep : Endpoint) (question : List Char) (st : BotState) :
    query tools ep question st =
      queryLoop tools ep max_tool_cycles (max_tool_cycles + 2)
        (ChatBot.execute ep (userAppended st question)).2 0
        { st := (ChatBot.execute ep (userAppended st question)).1, accum := [], log := [] } := rfl

/-- Claim C4: for a most-recent user message containing "run the tests",
the shell-execution authorization decision returns allowed; for
"what is the capital of France?" it returns not-allowed together with
the fixed denial reason. -/
theorem claim_C4 :
    (authorizeShellExecution [mkUserM ("run the tests".toList)]).1 = true ∧
    authorizeShellExecution [mkUserM ("what is the capital of France?".toList)] =
      (false, blockedReason) := by
  constructor
  · decide
  · decide

/-- Claim C8: for every conversation with no user message the
tool-exposure decision is true (fail-open); otherwise it is true exactly
when the lowercased most recent user text contains one of the fixed
intent markers -- the decision depends only on that text, read
case-insensitively. -/
theorem claim_C8 (messages : List Message) :
    ChatBot.should_enable_tools_for_next_turn messages = true ↔
      (lastUser? messages = none ∨
        ∃ w ∈ tool_intents, containsSub w (lowerL (lastUserText messages)) = true) := by
  cases h : lastUser? messages with
  | none =>
    simp [ChatBot.should_enable_tools_for_next_turn, h]
  | some m =>
    simp [ChatBot.should_enable_tools_for_next_turn, h, lastUserText, List.any_eq_true]

/-- Claim C10: the shell-authorization marker test is a plain substring
search without word boundaries on the lowercased most recent user text:
any occurrence of a marker such as "run" -- also inside a larger word
like "brunch" -- authorizes shell execution. -/
theorem claim_C10 (messages : List Message) (m : Message)
    (h : lastUser? messages = some m)
    (hc : containsSub ("run".toList) (lowerL m.content) = true) :
    (authorizeShellExecution messages).1 = true := by
  have ht : lastUserText messages = m.content := by
    unfold lastUserText
    rw [h]
  have hm : ("run".toList) ∈ shellMarkers := by decide
  have hr : explicitShellRequest (lowerL (lastUserText messages)) = true := by
    unfold explicitShellRequest
    rw [ht]
    have ha : shellMarkers.any (fun w => containsSub w (lowerL m.content)) = true :=
      List.any_eq_true.mpr ⟨_, hm, hc⟩
    simp [ha]
  unfold authorizeShellExecution
  rw [if_pos hr]

/-- A tool invocation with decoded (well-formed) arguments. -/
def mkToolCallD (cid nm : List Char) (args : ArgDict) : ToolCall :=
  { id := cid, name := nm, arguments := RawArgs.decoded args }

/-- A `tool`-role result message correlated to an invocation id. -/
def mkToolMsg (content cid : List Char) : Message :=
  { role := Role.tool, content := content, tool_call_id := some cid }

/-- A loop state over a conversation, with empty accumulators and a zero
prompt counter (used to instantiate theorems at concrete inputs). -/
def mkLS (msgs : List Message) : LoopState :=
  { st := { messages := msgs, number_of_prompts_sent := 0, system := [] },
    accum := [], log := [] }

/-- Witness for claim C10: the word "brunch" contains the marker "run",
so a user message about brunch authorizes shell execution. -/
theorem claim_C10_witness :
    lastUser? [mkUserM ("let us get brunch tomorrow".toList)] =
      some (mkUserM ("let us get brunch tomorrow".toList)) ∧
    containsSub ("run".toList) (lowerL (mkUserM ("let us get brunch tomorrow".toList)).content) = true ∧
    (authorizeShellExecution [mkUserM ("let us get brunch tomorrow".toList)]).1 = true :=
  ⟨by decide, by decide,
    claim_C10 [mkUserM ("let us get brunch tomorrow".toList)]
      (mkUserM ("let us get brunch tomorrow".toList)) (by decide) (by decide)⟩

/-- Claim C5: when a shell-execution invocation arrives without an
explicit action marker in the most recent user text, the shell
capability is never invoked (the capability log stays empty): the result
is the deterministic denial dictionary with status 1 and the fixed
reason, and the inner loop feeds it back as an ordinary `tool` message. -/
theorem claim_C5 (tools : AgentTools) (ls : LoopState) (cid : List Char) (arguments : ArgDict)
    (h : (authorizeShellExecution ls.st.messages).1 = false) :
    ChatBot.execute_tool tools ls.st.messages ("execute_bash_command".toList) arguments =
      (ToolResult.shellOut [] blockedReason 1, []) ∧
    processCalls tools [mkToolCallD cid ("execute_bash_command".toList) arguments] ls =
      ProcOut.okP (okState ls
        [mkToolMsg (render (ToolResult.shellOut [] blockedReason 1)) cid] []) := by
  have hbt : ChatBot.execute_tool tools ls.st.messages ("execute_bash_command".toList) arguments =
      (ToolResult.shellOut [] blockedReason 1, []) := by
    unfold ChatBot.execute_tool
    rw [if_neg (by decide), if_neg (by decide), if_neg (by decide), if_pos rfl, if_pos h]
  refine ⟨hbt, ?_⟩
  rw [show mkToolCallD cid ("execute_bash_command".toList) arguments =
    { id := cid, name := "execute_bash_command".toList, arguments := RawArgs.decoded arguments } from rfl]
  rw [processCalls_cons]
  have h0 : processCalls tools []
      (stepLS tools ls cid ("execute_bash_command".toList) arguments) =
      ProcOut.okP (stepLS tools ls cid ("execute_bash_command".toList) arguments) := rfl
  rw [h0]
  unfold stepLS toolMsgFor okState mkToolMsg
  rw [hbt]
  simp

/-- Witness for claim C5: a knowledge question carries no shell marker,
so a requested bash invocation is denied without touching the provider. -/
theorem claim_C5_witness :
    (authorizeShellExecution (mkLS [mkUserM ("what is the capital of France?".toList)]).st.messages).1 = false ∧
    (ChatBot.execute_tool stubTools (mkLS [mkUserM ("what is the capital of France?".toList)]).st.messages
        ("execute_bash_command".toList) [] =
      (ToolResult.shellOut [] blockedReason 1, []) ∧
    processCalls stubTools [mkToolCallD ("c1".toList) ("execute_bash_command".toList) []]
        (mkLS [mkUserM ("what is the capital of France?".toList)]) =
      ProcOut.okP (okState (mkLS [mkUserM ("what is the capital of France?".toList)])
        [mkToolMsg (render (ToolResult.shellOut [] blockedReason 1)) ("c1".toList)] [])) :=
  ⟨by decide,
    claim_C5 stubTools (mkLS [mkUserM ("what is the capital of France?".toList)])
      ("c1".toList) [] (by decide)⟩

/-- Claim C6: for an assistant turn carrying N (well-formed) tool
invocations, the inner loop finishes and appends exactly N `tool`
messages after the existing conversation, the i-th carrying the i-th
invocation's id, in the order of the invocations. -/
theorem claim_C6 (tools : AgentTools) (tcs : List ToolCall) (ls : LoopState)
    (h : ∀ tc ∈ tcs, tc.arguments ≠ RawArgs.invalid) :
    (processCalls tools tcs ls).isOkB = true ∧
    ((processCalls tools tcs ls).ls.st.messages).take ls.st.messages.length = ls.st.messages ∧
    (((processCalls tools tcs ls).ls.st.messages).drop ls.st.messages.length).map
        (fun m => (m.role, m.tool_call_id)) =
      tcs.map (fun tc => (Role.tool, some tc.id)) := by
  obtain ⟨d, d2, heq, hmap⟩ := processCalls_ok_spec tools tcs ls h
  rw [heq]
  refine ⟨rfl, ?_, ?_⟩
  · show (ls.st.messages ++ d).take ls.st.messages.length = ls.st.messages
    exact takeLenAppend _ _
  · show ((ls.st.messages ++ d).drop ls.st.messages.length).map _ = _
    rw [dropLenAppend]
    exact hmap

/-- Witness for claim C6: two invocations (a tree listing and an unknown
tool) produce exactly two ordered, correlated `tool` messages. -/
theorem claim_C6_witness :
    (∀ tc ∈ [mkToolCallD ("a1".toList) ("see_file_tree".toList) [],
        mkToolCallD ("b2".toList) ("nope".toList) []], tc.arguments ≠ RawArgs.invalid) ∧
    ((processCalls stubTools [mkToolCallD ("a1".toList) ("see_file_tree".toList) [],
        mkToolCallD ("b2".toList) ("nope".toList) []] (mkLS [mkUserM ("run ls".toList)])).isOkB = true ∧
    ((processCalls stubTools [mkToolCallD ("a1".toList) ("see_file_tree".toList) [],
        mkToolCallD ("b2".toList) ("nope".toList) []] (mkLS [mkUserM ("run ls".toList)])).ls.st.messages).take
        (mkLS [mkUserM ("run ls".toList)]).st.messages.length =
      (mkLS [mkUserM ("run ls".toList)]).st.messages ∧
    (((processCalls stubTools [mkToolCallD ("a1".toList) ("see_file_tree".toList) [],
        mkToolCallD ("b2".toList) ("nope".toList) []] (mkLS [mkUserM ("run ls".toList)])).ls.st.messages).drop
        (mkLS [mkUserM ("run ls".toList)]).st.messages.length).map
        (fun m => (m.role, m.tool_call_id)) =
      [mkToolCallD ("a1".toList) ("see_file_tree".toList) [],
        mkToolCallD ("b2".toList) ("nope".toList) []].map (fun tc => (Role.tool, some tc.id))) :=
  ⟨by decide,
    claim_C6 stubTools [mkToolCallD ("a1".toList) ("see_file_tree".toList) [],
      mkToolCallD ("b2".toList) ("nope".toList) []] (mkLS [mkUserM ("run ls".toList)]) (by decide)⟩

/-- Claim C7: the prompt counter is bumped exactly once per endpoint
exchange (`ChatBot.execute`), is untouched by the tool-execution inner
loop, and never decreases across a whole `query`; the conversation is
append-only -- the prior messages always remain an unchanged initial
segment. -/
theorem claim_C7 (ep : Endpoint) (st : BotState) (tools : AgentTools)
    (tcs : List ToolCall) (ls : LoopState) (question : List Char) :
    (ChatBot.execute ep st).1.number_of_prompts_sent = st.number_of_prompts_sent + 1 ∧
    (ChatBot.execute ep st).1.messages = st.messages ∧
    (processCalls tools tcs ls).ls.st.number_of_prompts_sent = ls.st.number_of_prompts_sent ∧
    ((processCalls tools tcs ls).ls.st.messages).take ls.st.messages.length = ls.st.messages ∧
    ((query tools ep question st).ls.st.messages).take st.messages.length = st.messages ∧
    st.number_of_prompts_sent ≤ (query tools ep question st).ls.st.number_of_prompts_sent := by
  obtain ⟨hc, hs, d, hm⟩ := processCalls_state tools tcs ls
  obtain ⟨qc, dq, qm⟩ := queryLoop_mono tools ep max_tool_cycles (max_tool_cycles + 2)
    (ChatBot.execute ep (userAppended st question)).2 0
    { st := (ChatBot.execute ep (userAppended st question)).1, accum := [], log := [] }
  refine ⟨?_, ?_, hc, ?_, ?_, ?_⟩
  · rw [execute_state_eq]
  · rw [execute_state_eq]
  · rw [hm]
    exact takeLenAppend _ _
  · rw [query_eq, qm]
    show ((ChatBot.execute ep (userAppended st question)).1.messages ++ dq).take
      st.messages.length = st.messages
    rw [execute_state_eq]
    show ((st.messages ++ [mkUserM question]) ++ dq).take st.messages.length = st.messages
    rw [List.append_assoc]
    exact takeLenAppend _ _
  · rw [query_eq]
    refine Nat.le_trans ?_ qc
    show st.number_of_prompts_sent ≤
      (ChatBot.execute ep (userAppended st question)).1.number_of_prompts_sent
    rw [execute_state_eq]
    exact Nat.le_succ _

/-- Whole-query consequence of `queryLoop_always`: under an endpoint
that always requests a well-formed tool invocation, `query` neither
raises nor returns a value, and its final prompt counter is the initial
one plus `max_tool_cycles + 1`. -/
lemma query_always_spec (tools : AgentTools) (ep : Endpoint) (question : List Char) (st : BotState)
    (Hep : ∀ (n : Nat) (msgs : List Message) (b : Bool),
      (ep n msgs b).callsOf ≠ [] ∧ ∀ tc ∈ (ep n msgs b).callsOf, tc.arguments ≠ RawArgs.invalid) :
    (query tools ep question st).raisedB = false ∧
    (query tools ep question st).answerOf = none ∧
    (query tools ep question st).ls.st.number_of_prompts_sent =
      st.number_of_prompts_sent + (max_tool_cycles + 1) := by
  rw [query_eq]
  have hcalls := execute_calls_eq ep (userAppended st question)
  have hne := (Hep ((userAppended st question).number_of_prompts_sent + 1)
    (userAppended st question).messages
    (ChatBot.should_enable_tools_for_next_turn (userAppended st question).messages)).1
  have hdec := (Hep ((userAppended st question).number_of_prompts_sent + 1)
    (userAppended st question).messages
    (ChatBot.should_enable_tools_for_next_turn (userAppended st question).messages)).2
  rw [← hcalls] at hne hdec
  obtain ⟨ra, an, hcnt⟩ := queryLoop_always tools ep Hep max_tool_cycles (max_tool_cycles + 2)
    (ChatBot.execute ep (userAppended st question)).2 0
    { st := (ChatBot.execute ep (userAppended st question)).1, accum := [], log := [] }
    (by omega) hne hdec
  refine ⟨ra, an, ?_⟩
  rw [hcnt]
  show (ChatBot.execute ep (userAppended st question)).1.number_of_prompts_sent +
    (max_tool_cycles - 0) = st.number_of_prompts_sent + (max_tool_cycles + 1)
  rw [execute_state_eq]
  show st.number_of_prompts_sent + 1 + (max_tool_cycles - 0) =
    st.number_of_prompts_sent + (max_tool_cycles + 1)
  omega

/-- Claim C1 (amended): if the endpoint answers every call with at least
one well-formed tool invocation, `query` terminates after exactly
`max_tool_cycles + 1` endpoint calls (the initial exchange plus one per
completed tool round) and returns no value at all -- the cycle-limit
`break` falls off the end of the function (Python `None`), not through
the fallback-answer path. -/
theorem claim_C1 (tools : AgentTools) (ep : Endpoint) (question : List Char) (st : BotState)
    (Hep : ∀ (n : Nat) (msgs : List Message) (b : Bool),
      (ep n msgs b).callsOf ≠ [] ∧ ∀ tc ∈ (ep n msgs b).callsOf, tc.arguments ≠ RawArgs.invalid) :
    (query tools ep question st).raisedB = false ∧
    (query tools ep question st).answerOf = none ∧
    (query tools ep question st).ls.st.number_of_prompts_sent =
      st.number_of_prompts_sent + (max_tool_cycles + 1) :=
  query_always_spec tools ep question st Hep

/-- The always-tool stub satisfies the endpoint hypothesis of the
cycle-bound theorem: every answer carries one decodable invocation. -/
lemma epAlwaysTool_spec (n : Nat) (msgs : List Message) (b : Bool) :
    (epAlwaysTool n msgs b).callsOf ≠ [] ∧
    ∀ tc ∈ (epAlwaysTool n msgs b).callsOf, tc.arguments ≠ RawArgs.invalid := by
  show epAlwaysAnswer.callsOf ≠ [] ∧ ∀ tc ∈ epAlwaysAnswer.callsOf, tc.arguments ≠ RawArgs.invalid
  decide

/-- Witness for claim C1: the always-tool-calling stub satisfies the
endpoint hypothesis, so a fresh bot run on it makes 9 endpoint calls
(counter 0 becomes 9 = `max_tool_cycles + 1`) and returns no value. -/
theorem claim_C1_witness :
    (∀ (n : Nat) (msgs : List Message) (b : Bool),
      (epAlwaysTool n msgs b).callsOf ≠ [] ∧
      ∀ tc ∈ (epAlwaysTool n msgs b).callsOf, tc.arguments ≠ RawArgs.invalid) ∧
    ((query stubTools epAlwaysTool ("run".toList) (ChatBot.init ("s".toList))).raisedB = false ∧
    (query stubTools epAlwaysTool ("run".toList) (ChatBot.init ("s".toList))).answerOf = none ∧
    (query stubTools epAlwaysTool ("run".toList) (ChatBot.init ("s".toList))).ls.st.number_of_prompts_sent =
      (ChatBot.init ("s".toList)).number_of_prompts_sent + (max_tool_cycles + 1)) :=
  ⟨epAlwaysTool_spec,
    claim_C1 stubTools epAlwaysTool ("run".toList) (ChatBot.init ("s".toList)) epAlwaysTool_spec⟩

/-- Counterexample to claim C1 as stated: with an endpoint stub that
always returns a tool invocation, `query` performs 9 endpoint calls --
not `max_tool_cycles = 8` -- and returns no answer at all instead of the
fallback answer. -/
theorem claim_C1_counterexample :
    (query stubTools epAlwaysTool ("run".toList) (ChatBot.init ("s".toList))).ls.st.number_of_prompts_sent = 9 ∧
    (9 : Nat) ≠ max_tool_cycles ∧
    (query stubTools epAlwaysTool ("run".toList) (ChatBot.init ("s".toList))).answerOf = none ∧
    (query stubTools epAlwaysTool ("run".toList) (ChatBot.init ("s".toList))).raisedB = false := by
  obtain ⟨ra, an, hc⟩ := query_always_spec stubTools epAlwaysTool ("run".toList)
    (ChatBot.init ("s".toList)) epAlwaysTool_spec
  refine ⟨?_, by decide, an, ra⟩
  rw [hc]
  rfl

/-- Claim C2 (amended): the fallback synthesis (note plus most recent
tool result, appended as an assistant message) happens only on the
no-invocations path when the content is empty and tool results exist;
reaching the cycle limit instead exits with no return value and no
appended message. -/
theorem claim_C2 (tools : AgentTools) (ep : Endpoint) (maxC fuel : Nat)
    (resp : RespMsg) (cycles : Nat) (ls : LoopState) :
    (resp.tool_calls = [] → resp.content = [] → ls.accum ≠ [] →
      queryLoop tools ep maxC fuel resp cycles ls =
        QueryOutcome.returned (some (fallbackNote ++ ls.accum.getLastD []))
          (appendAssistant ls (fallbackNote ++ ls.accum.getLastD []))) ∧
    (resp.tool_calls ≠ [] → cycles + 1 > maxC →
      queryLoop tools ep maxC fuel resp cycles ls = QueryOutcome.returned none ls) := by
  constructor
  · intro h1 h2 h3
    rw [queryLoop_terminal tools ep maxC fuel resp cycles ls h1]
    have hfc : finalContent resp ls = fallbackNote ++ ls.accum.getLastD [] := by
      unfold finalContent
      rw [if_pos ⟨h2, h3⟩]
    rw [hfc]
  · intro h1 h2
    exact queryLoop_break tools ep maxC fuel resp cycles ls h1 h2

/-- A loop state one tool round in: the conversation ends with a tool
result and the accumulator holds its text. -/
def cexLimitLS : LoopState :=
  { mkLS [mkUserM ("run".toList), mkToolMsg ("t".toList) ("1".toList)] with
    accum := ["t".toList] }

/-- The response message at the limit round: no content, one invocation. -/
def cexLimitResp : RespMsg :=
  { content := [], tool_calls := epAlwaysAnswer.callsOf }

/-- Witness for claim C2: with an empty final content over a nonempty
accumulator the loop returns the fallback summary and appends it; at the
cycle limit it returns no value. -/
theorem claim_C2_witness :
    (queryLoop stubTools epAlwaysTool max_tool_cycles 10
        { content := [], tool_calls := [] } 0 cexLimitLS =
      QueryOutcome.returned (some (fallbackNote ++ cexLimitLS.accum.getLastD []))
        (appendAssistant cexLimitLS (fallbackNote ++ cexLimitLS.accum.getLastD []))) ∧
    (queryLoop stubTools epAlwaysTool max_tool_cycles 10 cexLimitResp 8 cexLimitLS =
      QueryOutcome.returned none cexLimitLS) :=
  ⟨(claim_C2 stubTools epAlwaysTool max_tool_cycles 10
      { content := [], tool_calls := [] } 0 cexLimitLS).1 rfl rfl (by decide),
   (claim_C2 stubTools epAlwaysTool max_tool_cycles 10 cexLimitResp 8 cexLimitLS).2
      (by decide) (by decide)⟩

/-- Counterexample to claim C2 as stated: at the cycle limit, with a
tool result present in the accumulator, the loop returns no value and
leaves the conversation unchanged -- its last message is still the tool
result, not an appended assistant message with the synthesized answer. -/
theorem claim_C2_counterexample :
    queryLoop stubTools epAlwaysTool max_tool_cycles 10 cexLimitResp 8 cexLimitLS =
      QueryOutcome.returned none cexLimitLS ∧
    cexLimitLS.accum ≠ [] ∧
    ((cexLimitLS.st.messages).getLastD (mkUserM [])).role = Role.tool :=
  ⟨queryLoop_break stubTools epAlwaysTool max_tool_cycles 10 cexLimitResp 8 cexLimitLS
      (by decide) (by decide),
    by decide, by decide⟩

/-- The loop state returned when the very first endpoint call raises:
the conversation holds the user turn plus the synthetic assistant error
message, and the counter was still bumped for the attempted exchange. -/
def errReturnState (st : BotState) (question e : List Char) : LoopState :=
  { st := { messages := (userAppended st question).messages ++
                          [{ role := Role.assistant, content := errPrefix ++ e }],
            number_of_prompts_sent := st.number_of_prompts_sent + 1,
            system := st.system },
    accum := [], log := [] }

/-- `ChatBot.execute` when the endpoint raises: the counter is bumped
and a synthetic assistant-shaped error message is produced in place of a
response. -/
lemma execute_fail_eq (ep : Endpoint) (st : BotState) (e : List Char)
    (h : ep (st.number_of_prompts_sent + 1) st.messages
        (ChatBot.should_enable_tools_for_next_turn st.messages) = EndpointResult.fail e) :
    ChatBot.execute ep st =
      ({ st with number_of_prompts_sent := st.number_of_prompts_sent + 1 },
        { content := errPrefix ++ e, tool_calls := [] }) := by
  simp only [ChatBot.execute]
  rw [h]

/-- Claim C3: when the endpoint call raises, `query` does not propagate
the error: it returns normally with an assistant-shaped error
description ("Error: " plus the raised message) and appends it to the
conversation, so the session can continue. -/
theorem claim_C3 (tools : AgentTools) (ep : Endpoint) (question : List Char)
    (st : BotState) (e : List Char)
    (h : ep (st.number_of_prompts_sent + 1) (userAppended st question).messages
        (ChatBot.should_enable_tools_for_next_turn (userAppended st question).messages) =
      EndpointResult.fail e) :
    query tools ep question st =
      QueryOutcome.returned (some (errPrefix ++ e)) (errReturnState st question e) := by
  rw [query_eq]
  have h2 : st.number_of_prompts_sent = (userAppended st question).number_of_prompts_sent := rfl
  rw [h2] at h
  rw [execute_fail_eq ep (userAppended st question) e h]
  rfl

/-- Witness for claim C3: a constantly-raising endpoint stub makes
`query` return the "Error: boom" assistant message. -/
theorem claim_C3_witness :
    epFailStub ((ChatBot.init ("s".toList)).number_of_prompts_sent + 1)
        (userAppended (ChatBot.init ("s".toList)) ("hi".toList)).messages
        (ChatBot.should_enable_tools_for_next_turn
          (userAppended (ChatBot.init ("s".toList)) ("hi".toList)).messages) =
      EndpointResult.fail ("boom".toList) ∧
    query stubTools epFailStub ("hi".toList) (ChatBot.init ("s".toList)) =
      QueryOutcome.returned (some (errPrefix ++ "boom".toList))
        (errReturnState (ChatBot.init ("s".toList)) ("hi".toList) ("boom".toList)) :=
  ⟨rfl, claim_C3 stubTools epFailStub ("hi".toList) (ChatBot.init ("s".toList)) ("boom".toList) rfl⟩

/-- Claim C9 (amended): arguments that decode but miss a schema-required
key are treated as a capability failure -- `execute_tool` catches the
key error, returns the descriptive "Error executing ..." text, and the
inner loop feeds it back as a `tool` message and continues; but an
arguments payload that does not decode at all raises inside the loop
(`json.loads` sits outside `execute_tool`'s protection) and the
exception escapes. -/
theorem claim_C9 (tools : AgentTools) (ls : LoopState) (cid nm : List Char)
    (args : ArgDict) (rest : List ToolCall)
    (h : dictGet? args ("filepath".toList) = none) :
    ChatBot.execute_tool tools ls.st.messages ("read_file".toList) args =
      (ToolResult.text (errExec ("read_file".toList) (keyErrStr ("filepath".toList))), []) ∧
    processCalls tools [mkToolCallD cid ("read_file".toList) args] ls =
      ProcOut.okP (okState ls
        [mkToolMsg (errExec ("read_file".toList) (keyErrStr ("filepath".toList))) cid] []) ∧
    processCalls tools ({ id := cid, name := nm, arguments := RawArgs.invalid } :: rest) ls =
      ProcOut.raisedP jsonDecodeErrMsg ls := by
  have hbt : ChatBot.execute_tool tools ls.st.messages ("read_file".toList) args =
      (ToolResult.text (errExec ("read_file".toList) (keyErrStr ("filepath".toList))), []) := by
    unfold ChatBot.execute_tool
    rw [if_pos rfl, h]
  refine ⟨hbt, ?_, ?_⟩
  · rw [show mkToolCallD cid ("read_file".toList) args =
      { id := cid, name := "read_file".toList, arguments := RawArgs.decoded args } from rfl]
    rw [processCalls_cons]
    have h0 : processCalls tools [] (stepLS tools ls cid ("read_file".toList) args) =
        ProcOut.okP (stepLS tools ls cid ("read_file".toList) args) := rfl
    rw [h0]
    unfold stepLS toolMsgFor okState mkToolMsg
    rw [hbt]
    simp [render]
  · simp [processCalls, json_loads]

/-- Witness for claim C9: a `read_file` invocation whose decoded
arguments miss the required "filepath" key yields an inline error tool
result and the loop goes on; an undecodable payload raises. -/
theorem claim_C9_witness :
    dictGet? [] ("filepath".toList) = none ∧
    (ChatBot.execute_tool stubTools (mkLS [mkUserM ("run".toList)]).st.messages
        ("read_file".toList) [] =
      (ToolResult.text (errExec ("read_file".toList) (keyErrStr ("filepath".toList))), []) ∧
    processCalls stubTools [mkToolCallD ("c1".toList) ("read_file".toList) []]
        (mkLS [mkUserM ("run".toList)]) =
      ProcOut.okP (okState (mkLS [mkUserM ("run".toList)])
        [mkToolMsg (errExec ("read_file".toList) (keyErrStr ("filepath".toList))) ("c1".toList)] []) ∧
    processCalls stubTools
        ({ id := "c1".toList, name := "read_file".toList, arguments := RawArgs.invalid } :: [])
        (mkLS [mkUserM ("run".toList)]) =
      ProcOut.raisedP jsonDecodeErrMsg (mkLS [mkUserM ("run".toList)])) :=
  ⟨rfl, claim_C9 stubTools (mkLS [mkUserM ("run".toList)]) ("c1".toList) ("read_file".toList)
    [] [] rfl⟩

/-- Counterexample to claim C9 as stated: when the endpoint's invocation
carries an undecodable arguments payload, the exception is not converted
into a tool result -- it propagates out of `query` itself, so the loop
does not continue. -/
theorem claim_C9_counterexample :
    (query stubTools epBadArgs ("run".toList) (ChatBot.init ("s".toList))).errOf =
      some jsonDecodeErrMsg ∧
    (query stubTools epBadArgs ("run".toList) (ChatBot.init ("s".toList))).raisedB = true := by
  constructor
  · decide
  · decide
